import Mathlib

/-!
# Verification of the ez-disk-cache core (`src/ez_disk_cache/disk_cache.py`)

Shallow embedding of the cache-instance lifecycle manager:

* the `LazyList` class (shelf-backed lazy ordered collection, `__getitem__`,
  `__iter__`, `__eq__`, the three loading strategies),
* `_lookup_cache`, `_read_cache_instance` and the payload-kind dispatch on
  `_ITERABLE_TYPES`,
* the miss path of `_disk_cache_wrapper.wrapper` (compute, write payload,
  commit, rollback on failure),
* `_cleanup` together with `_get_cache_instance_last_usage_time`
  (LRU eviction).

Python machine-level details are modelled as follows: a shelf whose keys are
`str(0) .. str(N-1)` is a `List V`; a lookup `shelf[str(idx)]` succeeds
exactly when `idx` literally is one of those keys, i.e. `0 ≤ idx < N`,
and raises `KeyError` otherwise; Python-list indexing (which wraps negative
indices) is modelled separately by `pyListGet?`.  Exceptions are `Except`.
-/

namespace EzDiskCache

/-- Python exception kinds that the modelled code can raise. -/
inductive PyErr
  | indexError
  | keyError
  deriving Repr, DecidableEq

/-- The two lazy loading strategies held by a `LazyList`
(`"lazy-load-discard"` / `"lazy-load-keep"`); the third strategy
`"completely-load-to-memory"` never constructs a `LazyList` (it is handled
upstream in `_read_cache_instance`). -/
inductive LoadStrategy
  | discard
  | keep
  deriving Repr, DecidableEq

/-- Normalisation a Python list index undergoes: negative indices count from
the tail (`idx + len`). -/
def pyNorm (n : Nat) (idx : Int) : Int :=
  if idx < 0 then idx + n else idx

/-- Python list subscription `l[idx]` (as used for `self._storage_data_loaded[idx]`
and `self._storage[idx]`): negative indices wrap; out of range gives nothing. -/
def pyListGet? {α : Type} (l : List α) (idx : Int) : Option α :=
  if h : 0 ≤ pyNorm l.length idx ∧ pyNorm l.length idx < (l.length : Int) then
    some (l.get ⟨(pyNorm l.length idx).toNat, by omega⟩)
  else none

/-- Python list assignment `l[idx] = a`: negative indices wrap
(out-of-range assignment is unreachable at its use sites and modelled as a no-op). -/
def pyListSet {α : Type} (l : List α) (idx : Int) (a : α) : List α :=
  if 0 ≤ pyNorm l.length idx ∧ pyNorm l.length idx < (l.length : Int) then
    l.set (pyNorm l.length idx).toNat a
  else l

/-- Model of `self._shelf[str(idx)]` (line 298): the shelf written by the wrapper has
exactly the keys `str(0) .. str(N-1)`, so the lookup succeeds iff the literal
(possibly negative) `idx` prints as one of those keys, i.e. `0 ≤ idx < N`;
any other index raises `KeyError`. -/
def shelfGet {V : Type} (data : List V) (idx : Int) : Except PyErr V :=
  if h : 0 ≤ idx ∧ idx < (data.length : Int) then .ok (data.get ⟨idx.toNat, by omega⟩)
  else .error .keyError

/-- State of a `LazyList` object (lines 271-334).  `data` is the decoded
content of the backing shelf at keys `0 .. N-1`.  The source keeps the pair
`_storage_data_loaded : List bool` / `_storage : List Any`, always updated in
lock step (lines 300-301) and initialised in lock step (lines 281-282); the
pair is fused here into `storage : List (Option V)` with
`loaded[i] = true ↔ storage[i] ≠ none`, and `_storage_n_loaded` is its count
of filled slots (incremented exactly when a slot first flips, line 302). -/
structure LazyListState (V : Type) where
  data : List V
  strategy : LoadStrategy
  storage : List (Option V)
  isOpen : Bool
  deriving Repr, DecidableEq

/-- Model of `LazyList.__init__` for an intact shelf with keys `0 .. N-1`
(the keys-range assertion at lines 285-287 passes for such a shelf). -/
def initLazyList {V : Type} (data : List V) (strategy : LoadStrategy) : LazyListState V :=
  { data := data, strategy := strategy, storage := data.map (fun _ => none), isOpen := true }

/-- Model of `LazyList.__getitem__` (lines 293-305), faithfully including the bounds
guard `not -len(self) < idx < len(self)` and the un-normalised shelf access
`self._shelf[str(idx)]`. -/
def getItem {V : Type} (s : LazyListState V) (idx : Int) : Except PyErr (V × LazyListState V) :=
  if ¬(-(s.data.length : Int) < idx ∧ idx < (s.data.length : Int)) then .error .indexError
  else
    match s.strategy, pyListGet? s.storage idx with
    | .keep, some (some v) => .ok (v, s)
    | _, _ =>
      match shelfGet s.data idx with
      | .error e => .error e
      | .ok datum =>
        match s.strategy with
        | .keep =>
          .ok (datum, { s with
            storage := pyListSet s.storage idx (some datum),
            isOpen :=
              if (pyListSet s.storage idx (some datum)).countP Option.isSome = s.data.length then
                false
              else s.isOpen })
        | .discard => .ok (datum, s)

/-- Model of `LazyList.__iter__` (lines 322-324) unrolled over an explicit list of
indices: `for idx in range(self._len): yield self[idx]`, threading the state
that `__getitem__` may mutate; an exception stops the iteration. -/
def iterAux {V : Type} : LazyListState V → List Nat → List V × LazyListState V
  | s, [] => ([], s)
  | s, i :: rest =>
    match getItem s (i : Int) with
    | .error _ => ([], s)
    | .ok (v, s') =>
      let p := iterAux s' rest
      (v :: p.1, p.2)

/-- Full iteration of a `LazyList`: indices `0 .. N-1` in ascending order. -/
def lazyIterate {V : Type} (s : LazyListState V) : List V × LazyListState V :=
  iterAux s (List.range s.data.length)

/-- Python string `≤` on char lists: lexicographic by code point. -/
def charListLe : List Char → List Char → Bool
  | [], _ => true
  | _ :: _, [] => false
  | a :: as, b :: bs =>
    if a.toNat < b.toNat then true
    else if b.toNat < a.toNat then false
    else charListLe as bs

/-- Python string comparison `a <= b` (lexicographic by code point). -/
def strLe (a b : String) : Bool :=
  charListLe a.data b.data

/-- Stable insertion step of a string into a sorted list (an element is
placed before the first element not below it, as Python's stable sort does). -/
def insertSortedStr (x : String) : List String → List String
  | [] => [x]
  | y :: rest => if strLe x y then x :: y :: rest else y :: insertSortedStr x rest

/-- Python `sorted` on strings: stable, ascending lexicographic order. -/
def sortStrings (l : List String) : List String :=
  l.foldr insertSortedStr []

/-- Model of `shelf[k]` for a string key `k`: the shelf written by the wrapper binds
key `str(i)` to the `i`-th produced value, so the lookup finds the entry
whose printed index equals `k`. -/
def shelfKeyGet {V : Type} (data : List V) (k : String) : Option V :=
  (((List.range data.length).zip data).find? (fun p => toString p.1 == k)).map Prod.snd

/-- The `"completely-load-to-memory"` branch of `_read_cache_instance`
(lines 261-263): `keys = sorted(shelf.keys()); [shelf[k] for k in keys]` —
the string keys `str(0) .. str(N-1)` sorted *lexicographically*. -/
def eagerRead {V : Type} (data : List V) : List V :=
  (sortStrings ((List.range data.length).map (fun i => toString i))).filterMap (shelfKeyGet data)

/-- Other Python values a `LazyList` can be compared against in `__eq__`. -/
inductive PyObject (V : Type)
  | lazyList (s : LazyListState V)
  | plainList (xs : List V)
  | otherObject

/-- The elementwise scan `any(self[i] != other[i] for i in range(len(self)))`
of `LazyList.__eq__` (line 318), short-circuiting at the first unequal pair
and threading the states mutated by `__getitem__`; an exception propagates. -/
def lazyEqAux {V : Type} [DecidableEq V] :
    LazyListState V → LazyListState V → List Nat → Except PyErr Bool
  | _, _, [] => .ok true
  | s, t, i :: rest =>
    match getItem s (i : Int), getItem t (i : Int) with
    | .ok (v, s'), .ok (w, t') =>
      if v = w then lazyEqAux s' t' rest else .ok false
    | .error e, _ => .error e
    | .ok _, .error e => .error e

/-- Model of `LazyList.__eq__` (lines 315-320): `False` for any non-`LazyList` operand
or on a length mismatch, otherwise the elementwise scan. -/
def lazyEq {V : Type} [DecidableEq V] (s : LazyListState V) (o : PyObject V) :
    Except PyErr Bool :=
  match o with
  | .lazyList t =>
    if s.data.length ≠ t.data.length then .ok false
    else lazyEqAux s t (List.range s.data.length)
  | .plainList _ => .ok false
  | .otherObject => .ok false

/-- Invariant of reachable `LazyList` states: the memo `storage` has one slot
per shelf key and a filled slot holds exactly the shelf's datum for that key. -/
def storageConsistent {V : Type} (s : LazyListState V) : Prop :=
  s.storage.length = s.data.length ∧
  ∀ i v, s.storage.get? i = some (some v) → s.data.get? i = some v

/-! ## Payload-kind dispatch (`_ITERABLE_TYPES`, wrapper lines 165-177,
`_read_cache_instance` lines 253-268) -/

/-- Runtime shape of a value returned by the decorated user function. -/
inductive PyVal
  | pyList (xs : List PyVal)
  | pyTuple (xs : List PyVal)
  | pyGen (xs : List PyVal)
  | pyStr (s : String)
  | pyDict (kvs : List (String × PyVal))
  | pySet (xs : List PyVal)
  | pyInt (n : Int)
  | pyNone

/-- Model of `isinstance(_user_data, _ITERABLE_TYPES)` with
`_ITERABLE_TYPES = (list, tuple, Generator)` (line 22 / line 166). -/
def isIterableType : PyVal → Bool
  | .pyList _ => true
  | .pyTuple _ => true
  | .pyGen _ => true
  | _ => false

/-- The elements of a list / tuple / generator (what `enumerate` walks). -/
def itemsOf : PyVal → List PyVal
  | .pyList xs => xs
  | .pyTuple xs => xs
  | .pyGen xs => xs
  | _ => []

/-- What ends up inside a cache instance directory: either the pickled blob
`single-cache.bin` or the shelf `iterable-cache.shelf.bin` with keys
`0 .. N-1`. -/
inductive StoredPayload
  | single (v : PyVal)
  | sequence (entries : List PyVal)

/-- The payload-writing part of the wrapper's miss path (lines 166-177):
list / tuple / generator results go entry-by-entry into the shelf, every
other value is pickled as one blob. -/
def storePayload (v : PyVal) : StoredPayload :=
  if isIterableType v then .sequence (itemsOf v) else .single v

/-- The three values of the `iterable_loading_strategy` parameter. -/
inductive IterStrategy
  | lazyDiscard
  | lazyKeep
  | eager

/-- What `_read_cache_instance` hands back to the caller. -/
inductive ReadResult
  | singleVal (v : PyVal)
  | lazyList (s : LazyListState PyVal)
  | memoryList (xs : List PyVal)

/-- Model of `_read_cache_instance` (lines 253-268): the shelf file being present
selects the iterable branch; lazy strategies wrap the shelf in a `LazyList`,
the eager strategy reads all entries in sorted-string-key order; otherwise
the single pickled blob is loaded. -/
def readPayload (p : StoredPayload) (strat : IterStrategy) : ReadResult :=
  match p with
  | .single v => .singleVal v
  | .sequence es =>
    match strat with
    | .lazyDiscard => .lazyList (initLazyList es .discard)
    | .lazyKeep => .lazyList (initLazyList es .keep)
    | .eager => .memoryList (eagerRead es)

/-! ## Shelf writing of a one-shot producer (wrapper lines 167-173) -/

/-- Result of the shelf-writing block: the `(str(idx), value)` pairs that were
written, and whether the producer generator was `close()`d by the wrapper. -/
structure ShelfWriteOutcome (V : Type) where
  entries : List (Nat × V)
  producerClosed : Bool
  deriving Repr, DecidableEq

/-- The loop `for idx, v in enumerate(_user_data): _shelf[str(idx)] = v`
(lines 170-171): `writeOk v` says whether persisting `v` into the shelf
succeeds (e.g. whether it pickles).  A failure escapes the `with` block, so
the `close()` at line 173 is never reached on that path. -/
def writeShelfAux {V : Type} (writeOk : V → Bool) :
    Nat → List (Nat × V) → List V → Except (ShelfWriteOutcome V) (ShelfWriteOutcome V)
  | _, acc, [] => .ok { entries := acc, producerClosed := true }
  | idx, acc, v :: rest =>
    if writeOk v then writeShelfAux writeOk (idx + 1) (acc ++ [(idx, v)]) rest
    else .error { entries := acc, producerClosed := false }

/-- Writing a generator producer's items into the shelf (lines 169-173):
on success the producer is drained and then closed (line 172-173); when a
write raises, the exception propagates with the producer left open. -/
def writeIterablePayload {V : Type} (items : List V) (writeOk : V → Bool) :
    Except (ShelfWriteOutcome V) (ShelfWriteOutcome V) :=
  writeShelfAux writeOk 0 [] items

/-! ## Cache root, lookup, eviction (`_lookup_cache`, `_cleanup`,
`_get_cache_instance_last_usage_time`) -/

/-- One sub-directory of the cache root.  `name` stands for the directory
name (unique within a root), `configFile` for the contents of `config.yaml`
(`none` if the file is absent), `payload` for the decoded payload, `size` for
the directory's recursive file size, `usageFile` for the `.last-usage` marker
(`none`: file absent; `some none`: present but unparseable; `some (some t)`:
parses to timestamp `t`), and `fileMtime` / `dirMtime` for the filesystem
modification times of the marker file and of the directory. -/
structure CacheInstance (Rec Val : Type) where
  name : Nat
  configFile : Option Rec
  payload : Val
  size : Nat
  usageFile : Option (Option Int)
  fileMtime : Int
  dirMtime : Int
  deriving Repr, DecidableEq

/-- The per-candidate test of `_lookup_cache` (lines 222-236): the config
file must exist, parse into the requested config type (a parse failure is
logged and the candidate skipped), and be compatible. -/
def lookMatches {Cfg Rec Val : Type} (fromDict : Rec → Option Cfg) (compat : Cfg → Cfg → Bool)
    (cfg : Cfg) (i : CacheInstance Rec Val) : Bool :=
  match i.configFile with
  | none => false
  | some r =>
    match fromDict r with
    | none => false
    | some loaded => compat cfg loaded

/-- Model of `_lookup_cache` (lines 216-239): scan the sub-directories in enumeration
order and return the first compatible committed instance. -/
def lookupCache {Cfg Rec Val : Type} (fromDict : Rec → Option Cfg) (compat : Cfg → Cfg → Bool)
    (cfg : Cfg) : List (CacheInstance Rec Val) → Option (CacheInstance Rec Val)
  | [] => none
  | i :: rest =>
    if lookMatches fromDict compat cfg i then some i
    else lookupCache fromDict compat cfg rest

/-- Model of `shutil.rmtree` of the instance directory called `name`. -/
def removeInst {Rec Val : Type} (root : List (CacheInstance Rec Val)) (name : Nat) :
    List (CacheInstance Rec Val) :=
  root.filter (fun i => i.name != name)

/-- Total byte size of the root (`_get_cache_root_folder_stats`, line 350;
the source converts to MB, a fixed monotone rescaling that is abstracted
away — `size` and the limit are in the same unit here). -/
def totalSize {Rec Val : Type} (root : List (CacheInstance Rec Val)) : Nat :=
  (root.map CacheInstance.size).sum

/-- The `_cleanup_necessary` condition of `_get_cache_root_status_quo`
(lines 373-375). -/
def cleanupNecessary {Rec Val : Type} (ms mc : Option Nat)
    (root : List (CacheInstance Rec Val)) : Bool :=
  (match ms with | some m => decide (totalSize root > m) | none => false) ||
  (match mc with | some m => decide (root.length > m) | none => false)

/-- Model of `_get_cache_instance_last_usage_time` (lines 354-366): the parsed marker
if it parses, else the marker file's mtime, else the directory's mtime. -/
def lastUsageTime {Rec Val : Type} (i : CacheInstance Rec Val) : Int :=
  match i.usageFile with
  | some (some t) => t
  | some none => i.fileMtime
  | none => i.dirMtime

/-- Python dict insertion for the comprehension at lines 383-385: an existing
key keeps its position and gets its value overwritten. -/
def dictInsert {α : Type} : List (Int × α) → Int → α → List (Int × α)
  | [], t, a => [(t, a)]
  | (k, b) :: rest, t, a =>
    if k = t then (k, a) :: rest else (k, b) :: dictInsert rest t a

/-- The dict comprehension
`{usage_time(path): path for path in root if path.is_dir() and path != youngest}`
(lines 383-385): keyed by last-usage time, so instances with equal usage
times collapse to the last-enumerated one. -/
def usageDict {Rec Val : Type} (root : List (CacheInstance Rec Val)) (exemptName : Nat) :
    List (Int × CacheInstance Rec Val) :=
  (root.filter (fun i => i.name != exemptName)).foldl
    (fun acc i => dictInsert acc (lastUsageTime i) i) []

/-- Stable-sorted insertion of a keyed pair (placed before the first element
whose key is not below its own, as Python's stable `sorted` does). -/
def insertSortedPair {α : Type} (x : Int × α) : List (Int × α) → List (Int × α)
  | [] => [x]
  | y :: rest => if x.1 ≤ y.1 then x :: y :: rest else y :: insertSortedPair x rest

/-- Model of `sorted(items, key=lambda item: item[0])` (line 386): stable ascending
sort by key. -/
def sortPairs {α : Type} (l : List (Int × α)) : List (Int × α) :=
  l.foldr insertSortedPair []

/-- Model of `_sorted_deletable_paths` (lines 383-386): the eviction ranking — all the
distinct-usage-time representatives other than the exempt instance, least
recently used first. -/
def rankedDeletable {Rec Val : Type} (root : List (CacheInstance Rec Val)) (exemptName : Nat) :
    List (CacheInstance Rec Val) :=
  (sortPairs (usageDict root exemptName)).map Prod.snd

/-- The deletion loop of `_cleanup` (lines 387-391).  The `Except` error case
is the `IndexError` raised by `_sorted_deletable_paths[0]` when the loop
condition still holds but the deletable list is exhausted; it carries the
on-disk root state at the moment of the crash. -/
def cleanupLoop {Rec Val : Type} (ms mc : Option Nat) :
    List (CacheInstance Rec Val) → List (CacheInstance Rec Val) →
    Except (List (CacheInstance Rec Val)) (List (CacheInstance Rec Val))
  | [], root =>
    if 2 ≤ root.length ∧ cleanupNecessary ms mc root = true then .error root
    else .ok root
  | d :: rest, root =>
    if 2 ≤ root.length ∧ cleanupNecessary ms mc root = true then
      cleanupLoop ms mc rest (removeInst root d.name)
    else .ok root

/-- Model of `_cleanup` (lines 369-401): rank the non-exempt instances, then delete
least-recently-used ones while the root still exceeds its limits and at least
two instances remain. -/
def cleanup {Rec Val : Type} (ms mc : Option Nat) (root : List (CacheInstance Rec Val))
    (exemptName : Nat) :
    Except (List (CacheInstance Rec Val)) (List (CacheInstance Rec Val)) :=
  cleanupLoop ms mc (rankedDeletable root exemptName) root

/-- The root state an `Except`-valued cleanup leaves on disk (the crash case
leaves the partially cleaned root behind). -/
def exceptState {Rec Val : Type} :
    Except (List (CacheInstance Rec Val)) (List (CacheInstance Rec Val)) →
    List (CacheInstance Rec Val)
  | .ok r => r
  | .error r => r

/-! ## The wrapper (`_disk_cache_wrapper.wrapper`, lines 148-199) -/

/-- The collaborator capabilities and limits the wrapper closes over:
`_to_dict` / `_from_dict` / `_cache_is_compatible` of the config subtype and
the two configured limits. -/
structure WrapperEnv (Cfg Rec : Type) where
  toDict : Cfg → Rec
  fromDict : Rec → Option Cfg
  compat : Cfg → Cfg → Bool
  maxSize : Option Nat
  maxCount : Option Nat

/-- How a wrapper call can fail: the user computation / payload / commit span
raised (re-raised unchanged after rollback), or `_cleanup` crashed. -/
inductive WrapErr (Err : Type)
  | user (e : Err)
  | cleanupCrash

/-- Observable outcome of one wrapper call: the returned value or propagated
exception, the root directory afterwards, and how often the user function ran. -/
structure CallOutcome (Rec Val Err : Type) where
  result : Except (WrapErr Err) Val
  root : List (CacheInstance Rec Val)
  fCalls : Nat

/-- The committed instance the miss path leaves behind: payload written,
then `config.yaml` written (lines 167-180); no `.last-usage` marker yet. -/
def mkInstance {Cfg Rec Val : Type} (toDict : Cfg → Rec) (cfg : Cfg) (v : Val)
    (name sz : Nat) (now : Int) : CacheInstance Rec Val :=
  { name := name, configFile := some (toDict cfg), payload := v, size := sz,
    usageFile := none, fileMtime := now, dirMtime := now }

/-- Effect of the `.last-usage` write on one directory: only the named
instance's marker file (and its mtime) changes. -/
def touchFn {Rec Val : Type} (name : Nat) (now : Int) (i : CacheInstance Rec Val) :
    CacheInstance Rec Val :=
  if i.name = name then { i with usageFile := some (some now), fileMtime := now } else i

/-- The `.last-usage` write performed on every read
(`_read_cache_instance`, lines 246-251). -/
def touch {Rec Val : Type} (root : List (CacheInstance Rec Val)) (name : Nat) (now : Int) :
    List (CacheInstance Rec Val) :=
  root.map (touchFn name now)

/-- One call of `wrapper` (lines 148-199).  `compute` is the outcome of the
whole guarded span (user function, payload write, config write): any raise
there — `SystemExit` / `KeyboardInterrupt` included, lines 181-188 — removes
the fresh instance directory and re-raises, leaving the root as before.  On
success the instance is committed, `_cleanup` runs with it exempt, and the
instance is read back (touching its `.last-usage`). -/
def wrapperCall {Cfg Rec Val Err : Type} (env : WrapperEnv Cfg Rec)
    (root : List (CacheInstance Rec Val)) (cfg : Cfg) (compute : Except Err Val)
    (newName sz : Nat) (now : Int) : CallOutcome Rec Val Err :=
  match lookupCache env.fromDict env.compat cfg root with
  | some inst => { result := .ok inst.payload, root := touch root inst.name now, fCalls := 0 }
  | none =>
    match compute with
    | .error e => { result := .error (.user e), root := root, fCalls := 1 }
    | .ok v =>
      match cleanup env.maxSize env.maxCount
          (root ++ [mkInstance env.toDict cfg v newName sz now]) newName with
      | .error crashRoot => { result := .error .cleanupCrash, root := crashRoot, fCalls := 1 }
      | .ok root2 => { result := .ok v, root := touch root2 newName now, fCalls := 1 }

/-! ## Commit-point staging (miss path, lines 164-180) -/

/-- Payload progress of the instance directory under construction. -/
inductive BuildPayload (Val : Type)
  | empty
  | written (v : Val)

/-- On-disk state of the instance directory at one point of the miss path. -/
structure BuildingInstance (Rec Val : Type) where
  payload : BuildPayload Val
  configFile : Option Rec

/-- The successive on-disk states of the new instance directory along the
miss path, in program order: created empty (line 160), payload fully written
(lines 167-177), `config.yaml` written (lines 178-180). -/
def missPathBuildStates {Cfg Rec Val : Type} (toDict : Cfg → Rec) (cfg : Cfg) (v : Val) :
    List (BuildingInstance Rec Val) :=
  [ { payload := .empty, configFile := none },
    { payload := .written v, configFile := none },
    { payload := .written v, configFile := some (toDict cfg) } ]

/-- The shelf-write outcome actually left behind, raise or no raise. -/
def shelfOutcome {V : Type} :
    Except (ShelfWriteOutcome V) (ShelfWriteOutcome V) → ShelfWriteOutcome V
  | .ok o => o
  | .error o => o

/-- Concrete eviction scenario: non-exempt instance, last used at time 5. -/
def instUsageA : CacheInstance Nat Nat :=
  { name := 0, configFile := some 0, payload := 0, size := 1,
    usageFile := some (some 5), fileMtime := 0, dirMtime := 0 }

/-- Concrete eviction scenario: a second non-exempt instance with the same
last-usage time 5 as `instUsageA`. -/
def instUsageB : CacheInstance Nat Nat :=
  { name := 1, configFile := some 0, payload := 0, size := 1,
    usageFile := some (some 5), fileMtime := 0, dirMtime := 0 }

/-- Concrete eviction scenario: the exempt (just committed) instance. -/
def instUsageE : CacheInstance Nat Nat :=
  { name := 2, configFile := some 0, payload := 0, size := 1,
    usageFile := some (some 9), fileMtime := 0, dirMtime := 0 }

/-!
## Theorems
-/

/-- C3: `LazyList.at` and negative indices.  The spec claims `at(i)` succeeds
for every `i ∈ [-N, N-1]`, with `at(-1) = at(N-1)`, and fails with
`IndexOutOfRange` only outside that range.  On a fresh length-2 collection
the code instead raises `KeyError` for `at(-1)` (the shelf is consulted with
the literal key `str(-1)`, under both lazy strategies) and `IndexError` for
`at(-2)` (the bound guard `-len < idx` is strict, excluding `-N`); only the
out-of-range failures at `2` and `-3` and positive indexing behave as
claimed. -/
theorem lazyList_negative_index_bug :
    getItem (initLazyList ([10, 20] : List Nat) .discard) (-1) = .error .keyError ∧
    getItem (initLazyList ([10, 20] : List Nat) .keep) (-1) = .error .keyError ∧
    getItem (initLazyList ([10, 20] : List Nat) .discard) (-2) = .error .indexError ∧
    getItem (initLazyList ([10, 20] : List Nat) .discard) 2 = .error .indexError ∧
    getItem (initLazyList ([10, 20] : List Nat) .discard) (-3) = .error .indexError ∧
    getItem (initLazyList ([10, 20] : List Nat) .discard) 1 =
      .ok (20, initLazyList ([10, 20] : List Nat) .discard) :=
  ⟨rfl, rfl, rfl, rfl, rfl, rfl⟩

/-- C4: strategy equivalence fails for the Eager strategy.  Over the
11-element sequence payload `0, …, 10`, iterating a `LazyList` under the
Discard and Keep strategies yields the elements in ascending index order,
but the `"completely-load-to-memory"` branch sorts the shelf's *string* keys,
so it returns index order `0, 1, 10, 2, …, 9` — not elementwise identical to
the lazy strategies. -/
theorem strategy_equivalence_eager_order_bug :
    (lazyIterate (initLazyList (List.range 11) .discard)).1 = List.range 11 ∧
    (lazyIterate (initLazyList (List.range 11) .keep)).1 = List.range 11 ∧
    eagerRead (List.range 11) = [0, 1, 10, 2, 3, 4, 5, 6, 7, 8, 9] ∧
    eagerRead (List.range 11) ≠ List.range 11 :=
  ⟨rfl, rfl, rfl, by decide⟩

/-- C7: the eviction ranking is not complete.  With exempt instance
`instUsageE` and the two non-exempt instances `instUsageA`, `instUsageB`
sharing last-usage time 5, the dict comprehension keyed by usage time keeps
only the later-enumerated one, so the ranking contains a single candidate
(`instUsageB`) instead of both; with `max_cache_instances = 1` the deletion
loop then exhausts the ranking while limits are still exceeded and crashes
with `IndexError` (the `.error` outcome), leaving `instUsageA` undeleted. -/
theorem eviction_rank_equal_times_bug :
    (rankedDeletable [instUsageA, instUsageB, instUsageE] 2).map CacheInstance.name = [1] ∧
    instUsageA ∉ rankedDeletable [instUsageA, instUsageB, instUsageE] 2 ∧
    cleanup none (some 1) [instUsageA, instUsageB, instUsageE] 2 =
      .error [instUsageA, instUsageE] :=
  ⟨rfl, by decide, rfl⟩

/-- C8 counterexample: the producer is *not* released when writing raises.
With a one-element producer whose element fails to persist, the `with` block
is left by the exception before `close()` is reached, so the write outcome
has `producerClosed = false` — refuting "released afterward regardless of
whether the write succeeds or raises". -/
theorem producer_release_counterexample :
    (shelfOutcome (writeIterablePayload ([0] : List Nat) (fun _ => false))).producerClosed
      = false :=
  rfl

/-- A matching candidate of `_lookup_cache` necessarily has a config file. -/
theorem lookMatches_configFile {Cfg Rec Val : Type} (fromDict : Rec → Option Cfg)
    (compat : Cfg → Cfg → Bool) (cfg : Cfg) (i : CacheInstance Rec Val)
    (h : lookMatches fromDict compat cfg i = true) : i.configFile.isSome = true := by
  unfold lookMatches at h
  cases hcf : i.configFile with
  | none => rw [hcf] at h; cases h
  | some r => simp

/-- C5: commit-point visibility.  Along the miss path, every intermediate
on-disk state of the new instance that has a `config.yaml` already has the
payload fully written (the descriptor record is written strictly after the
payload); and `_lookup_cache` only ever returns an instance whose
`config.yaml` exists — uncommitted directories are invisible to lookup. -/
theorem commit_point_visibility {Cfg Rec Val : Type}
    (toDict : Cfg → Rec) (fromDict : Rec → Option Cfg) (compat : Cfg → Cfg → Bool)
    (cfg : Cfg) (v : Val) (root : List (CacheInstance Rec Val)) (inst : CacheInstance Rec Val) :
    (∀ s ∈ missPathBuildStates toDict cfg v,
        s.configFile.isSome = true → s.payload = BuildPayload.written v) ∧
    (lookupCache fromDict compat cfg root = some inst → inst.configFile.isSome = true) := by
  constructor
  · intro s hs hsome
    simp only [missPathBuildStates, List.mem_cons, List.not_mem_nil, or_false] at hs
    rcases hs with rfl | rfl | rfl
    · simp at hsome
    · simp at hsome
    · rfl
  · intro h
    induction root with
    | nil => simp [lookupCache] at h
    | cons i rest ih =>
      unfold lookupCache at h
      split at h
      · rename_i hm
        cases h
        exact lookMatches_configFile fromDict compat cfg _ hm
      · exact ih h

/-- Witness for C5 at concrete values: the committed build state has its
payload written, and a concrete single-instance root is looked up only
through its config file. -/
theorem commit_point_visibility_witness :
    ({ payload := BuildPayload.written 42, configFile := some 7 } :
        BuildingInstance Nat Nat).payload = BuildPayload.written (42 : Nat) ∧
    ({ name := 0, configFile := some 7, payload := 42, size := 1, usageFile := none,
        fileMtime := 0, dirMtime := 0 } : CacheInstance Nat Nat).configFile.isSome = true := by
  constructor
  · exact (commit_point_visibility (fun c : Nat => c) (fun r : Nat => some r)
      (fun a b => a == b) 7 42
      ([⟨0, some 7, 42, 1, none, 0, 0⟩] : List (CacheInstance Nat Nat))
      ⟨0, some 7, 42, 1, none, 0, 0⟩).1
      { payload := BuildPayload.written 42, configFile := some 7 }
      (by simp [missPathBuildStates]) rfl
  · exact (commit_point_visibility (fun c : Nat => c) (fun r : Nat => some r)
      (fun a b => a == b) 7 42
      ([⟨0, some 7, 42, 1, none, 0, 0⟩] : List (CacheInstance Nat Nat))
      ⟨0, some 7, 42, 1, none, 0, 0⟩).2 rfl

/-- C9: implicit payload-kind selection.  A result is persisted into the
multi-entry shelf iff its runtime type is list, tuple or generator
(`_ITERABLE_TYPES`); every other value — strings, dicts, sets, numbers,
`None` — is pickled as a single blob, and a cache hit on it returns that one
value (never a collection), under every loading strategy. -/
theorem payload_kind_selection (v : PyVal) (strat : IterStrategy) :
    (isIterableType v = true ↔
      (∃ xs, v = PyVal.pyList xs) ∨ (∃ xs, v = PyVal.pyTuple xs) ∨
      (∃ xs, v = PyVal.pyGen xs)) ∧
    (isIterableType v = false → readPayload (storePayload v) strat = ReadResult.singleVal v) := by
  constructor
  · cases v <;> simp [isIterableType]
  · intro h
    simp [storePayload, h, readPayload]

/-- Witness for C9: a string result is stored and read back as one single
value. -/
theorem payload_kind_selection_witness :
    readPayload (storePayload (PyVal.pyStr "abc")) IterStrategy.eager
      = ReadResult.singleVal (PyVal.pyStr "abc") :=
  (payload_kind_selection (PyVal.pyStr "abc") IterStrategy.eager).2 rfl

/-- Spec of the shelf-writing loop at any start index and accumulator: on
success everything was drained in order and the producer closed; on a raise
the producer is left open. -/
theorem writeShelfAux_spec {V : Type} (writeOk : V → Bool) :
    ∀ (items : List V) (idx : Nat) (acc : List (Nat × V)),
      (∀ o, writeShelfAux writeOk idx acc items = .ok o →
        o.producerClosed = true ∧ o.entries = acc ++ items.enumFrom idx) ∧
      (∀ o, writeShelfAux writeOk idx acc items = .error o → o.producerClosed = false) := by
  intro items
  induction items with
  | nil =>
    intro idx acc
    constructor
    · intro o h
      simp only [writeShelfAux, Except.ok.injEq] at h
      rw [← h]
      simp [List.enumFrom]
    · intro o h
      simp [writeShelfAux] at h
  | cons v rest ih =>
    intro idx acc
    by_cases hw : writeOk v = true
    · constructor
      · intro o h
        rw [writeShelfAux, if_pos hw] at h
        obtain ⟨h1, h2⟩ := (ih (idx + 1) (acc ++ [(idx, v)])).1 o h
        refine ⟨h1, ?_⟩
        rw [h2]
        simp [List.enumFrom_cons]
      · intro o h
        rw [writeShelfAux, if_pos hw] at h
        exact (ih (idx + 1) (acc ++ [(idx, v)])).2 o h
    · constructor
      · intro o h
        rw [writeShelfAux, if_neg hw] at h
        cases h
      · intro o h
        rw [writeShelfAux, if_neg hw] at h
        simp only [Except.error.injEq] at h
        rw [← h]

/-- C8 amended: when the user computation returns a finite one-shot
generator, the wrapper fully drains it into the shelf indexed from 0 and
closes it *when the write succeeds*; when writing an element raises, the
exception propagates and the wrapper does not close the producer. -/
theorem producer_release_amended {V : Type} (items : List V) (writeOk : V → Bool) :
    (∀ o, writeIterablePayload items writeOk = .ok o →
      o.producerClosed = true ∧ o.entries = items.enum) ∧
    (∀ o, writeIterablePayload items writeOk = .error o → o.producerClosed = false) := by
  have h := writeShelfAux_spec writeOk items 0 []
  simpa [writeIterablePayload, List.enum] using h

/-- Membership in a stable-insertion step comes from the inserted pair or
the old list. -/
theorem mem_insertSortedPair {α : Type} (x : Int × α) (l : List (Int × α)) (y : Int × α)
    (h : y ∈ insertSortedPair x l) : y = x ∨ y ∈ l := by
  induction l with
  | nil => simpa [insertSortedPair] using h
  | cons z rest ih =>
    unfold insertSortedPair at h
    split at h
    · rcases List.mem_cons.mp h with h1 | h1
      · exact Or.inl h1
      · exact Or.inr h1
    · rcases List.mem_cons.mp h with h1 | h1
      · exact Or.inr (List.mem_cons.mpr (Or.inl h1))
      · rcases ih h1 with h2 | h2
        · exact Or.inl h2
        · exact Or.inr (List.mem_cons.mpr (Or.inr h2))

/-- Sorting the ranking does not invent candidates. -/
theorem mem_sortPairs {α : Type} (l : List (Int × α)) (y : Int × α)
    (h : y ∈ sortPairs l) : y ∈ l := by
  induction l with
  | nil => simp [sortPairs] at h
  | cons z rest ih =>
    rcases mem_insertSortedPair z (sortPairs rest) y h with h1 | h1
    · simp [h1]
    · exact List.mem_cons.mpr (Or.inr (ih h1))

/-- Every value of a Python-dict insertion is either the inserted value or
one already present. -/
theorem dictInsert_forall_values {α : Type} (P : α → Prop) :
    ∀ (acc : List (Int × α)) (t : Int) (a : α),
      (∀ p ∈ acc, P p.2) → P a → ∀ p ∈ dictInsert acc t a, P p.2 := by
  intro acc
  induction acc with
  | nil =>
    intro t a _ ha p hp
    simp only [dictInsert, List.mem_singleton] at hp
    rw [hp]
    exact ha
  | cons z rest ih =>
    obtain ⟨k, b⟩ := z
    intro t a hacc ha p hp
    unfold dictInsert at hp
    split at hp
    · rcases List.mem_cons.mp hp with rfl | h1
      · exact ha
      · exact hacc _ (List.mem_cons.mpr (Or.inr h1))
    · rcases List.mem_cons.mp hp with rfl | h1
      · exact hacc (k, b) (List.mem_cons.mpr (Or.inl rfl))
      · exact ih t a (fun q hq => hacc q (List.mem_cons.mpr (Or.inr hq))) ha p h1

/-- Every value of the usage-time dict built by `_cleanup` comes from the
inserted instances. -/
theorem foldl_dictInsert_forall {Rec Val : Type} (P : CacheInstance Rec Val → Prop) :
    ∀ (l : List (CacheInstance Rec Val)) (acc : List (Int × CacheInstance Rec Val)),
      (∀ p ∈ acc, P p.2) → (∀ i ∈ l, P i) →
      ∀ p ∈ l.foldl (fun acc i => dictInsert acc (lastUsageTime i) i) acc, P p.2 := by
  intro l
  induction l with
  | nil => intro acc hacc _ p hp; exact hacc p hp
  | cons i rest ih =>
    intro acc hacc hl p hp
    exact ih (dictInsert acc (lastUsageTime i) i)
      (dictInsert_forall_values P acc (lastUsageTime i) i hacc (hl i (by simp)))
      (fun j hj => hl j (by simp [hj])) p hp

/-- No candidate in the eviction ranking bears the exempt instance's name. -/
theorem rankedDeletable_names {Rec Val : Type} (root : List (CacheInstance Rec Val))
    (exemptName : Nat) :
    ∀ d ∈ rankedDeletable root exemptName, d.name ≠ exemptName := by
  intro d hd
  obtain ⟨p, hp, hpd⟩ := List.mem_map.mp hd
  have hmem := mem_sortPairs _ p hp
  have hall := foldl_dictInsert_forall (fun i => i.name ≠ exemptName)
    (root.filter (fun i => i.name != exemptName)) [] (by simp)
    (fun i hi => bne_iff_ne.mp (List.mem_filter.mp hi).2) p hmem
  rw [← hpd]
  exact hall

/-- The deletion loop never loses an instance that no ranked candidate
names — the exempt instance in particular — whether it terminates normally
or crashes. -/
theorem cleanupLoop_mem_exempt {Rec Val : Type} (ms mc : Option Nat)
    (exempt : CacheInstance Rec Val) :
    ∀ (dels root : List (CacheInstance Rec Val)), exempt ∈ root →
      (∀ d ∈ dels, d.name ≠ exempt.name) →
      exempt ∈ exceptState (cleanupLoop ms mc dels root) := by
  intro dels
  induction dels with
  | nil =>
    intro root hmem _
    unfold cleanupLoop
    split
    · exact hmem
    · exact hmem
  | cons d rest ih =>
    intro root hmem hdels
    unfold cleanupLoop
    split
    · apply ih
      · refine List.mem_filter.mpr ⟨hmem, ?_⟩
        exact bne_iff_ne.mpr (fun he => hdels d (by simp) he.symm)
      · exact fun x hx => hdels x (by simp [hx])
    · exact hmem

/-- Proof that `_cleanup` keeps the just-committed (exempt) instance on disk in every
outcome. -/
theorem cleanup_mem_exempt {Rec Val : Type} (ms mc : Option Nat)
    (root : List (CacheInstance Rec Val)) (exempt : CacheInstance Rec Val)
    (hmem : exempt ∈ root) :
    exempt ∈ exceptState (cleanup ms mc root exempt.name) :=
  cleanupLoop_mem_exempt ms mc exempt _ root hmem
    (rankedDeletable_names root exempt.name)

/-- C6: eviction floor.  For every root state and configured limits,
`_cleanup` never deletes the exempt (just-committed) instance and never
reduces the instance count below 1: in every outcome — normal termination,
the shortfall-warning stop, or the equal-timestamps crash — the exempt
instance is still in the root, so at least one instance remains. -/
theorem eviction_floor {Rec Val : Type} (ms mc : Option Nat)
    (root : List (CacheInstance Rec Val)) (exempt : CacheInstance Rec Val)
    (hmem : exempt ∈ root) :
    exempt ∈ exceptState (cleanup ms mc root exempt.name) ∧
    1 ≤ (exceptState (cleanup ms mc root exempt.name)).length := by
  have h := cleanup_mem_exempt ms mc root exempt hmem
  exact ⟨h, List.length_pos_of_mem h⟩

/-- Witness for C6: a concrete over-limit root whose eviction (which even
crashes on the equal-timestamp pair) retains the exempt instance. -/
theorem eviction_floor_witness :
    instUsageE ∈ exceptState (cleanup none (some 1) [instUsageA, instUsageB, instUsageE]
      instUsageE.name) ∧
    1 ≤ (exceptState (cleanup none (some 1) [instUsageA, instUsageB, instUsageE]
      instUsageE.name)).length :=
  eviction_floor none (some 1) [instUsageA, instUsageB, instUsageE] instUsageE (by decide)

/-- Python list subscription at a plain natural index is `List.get?`. -/
theorem pyListGet?_nat {α : Type} (l : List α) (i : Nat) :
    pyListGet? l (i : Int) = l.get? i := by
  have hnorm : pyNorm l.length (i : Int) = (i : Int) := by
    unfold pyNorm
    rw [if_neg (by omega)]
  unfold pyListGet?
  simp only [hnorm]
  split
  · rename_i h
    rw [List.get?_eq_get (show i < l.length by omega)]
    simp
  · rename_i h
    rw [eq_comm, List.get?_eq_none]
    omega

/-- Python list assignment at a plain natural index is `List.set`. -/
theorem pyListSet_nat {α : Type} (l : List α) (i : Nat) (a : α) :
    pyListSet l (i : Int) a = l.set i a := by
  have hnorm : pyNorm l.length (i : Int) = (i : Int) := by
    unfold pyNorm
    rw [if_neg (by omega)]
  unfold pyListSet
  simp only [hnorm]
  split
  · simp
  · rename_i h
    rw [List.set_eq_of_length_le (by omega)]

/-- The shelf access at an in-range natural index yields that entry. -/
theorem shelfGet_nat {V : Type} (data : List V) (i : Nat) (h : i < data.length) :
    shelfGet data (i : Int) = .ok (data.get ⟨i, h⟩) := by
  unfold shelfGet
  rw [dif_pos ⟨by omega, by exact_mod_cast h⟩]
  simp

/-- A freshly constructed `LazyList` has a consistent (all-empty) memo. -/
theorem storageConsistent_init {V : Type} (data : List V) (strat : LoadStrategy) :
    storageConsistent (initLazyList data strat) := by
  constructor
  · simp [initLazyList]
  · intro i v hv
    rw [initLazyList, List.get?_eq_getElem?, List.getElem?_map] at hv
    cases hd : data[i]? with
    | none => rw [hd] at hv; cases hv
    | some x => rw [hd] at hv; cases hv

/-- Behaviour of `__getitem__` at an in-range natural index: it returns the shelf entry and
leaves the collection's data, strategy, and memo consistency intact. -/
theorem getItem_nat_ok {V : Type} (s : LazyListState V) (hc : storageConsistent s)
    (i : Nat) (h : i < s.data.length) :
    ∃ s', getItem s (i : Int) = .ok (s.data.get ⟨i, h⟩, s') ∧
      s'.data = s.data ∧ s'.strategy = s.strategy ∧ storageConsistent s' := by
  unfold getItem
  rw [if_neg (not_not_intro ⟨by omega, by exact_mod_cast h⟩)]
  have hlen : i < s.storage.length := by rw [hc.1]; exact h
  rw [pyListGet?_nat, List.get?_eq_get hlen]
  cases hstrat : s.strategy with
  | discard =>
    cases hx : s.storage.get ⟨i, hlen⟩ with
    | none =>
      rw [shelfGet_nat s.data i h]
      exact ⟨s, rfl, rfl, hstrat, hc⟩
    | some v =>
      rw [shelfGet_nat s.data i h]
      exact ⟨s, rfl, rfl, hstrat, hc⟩
  | keep =>
    cases hx : s.storage.get ⟨i, hlen⟩ with
    | some v =>
      have hv : s.data.get? i = some v :=
        hc.2 i v (by rw [List.get?_eq_get hlen, hx])
      have hv2 : v = s.data.get ⟨i, h⟩ := by
        rw [List.get?_eq_get h] at hv
        exact (Option.some_inj.mp hv).symm
      exact ⟨s, by rw [hv2], rfl, hstrat, hc⟩
    | none =>
      rw [shelfGet_nat s.data i h]
      refine ⟨_, rfl, rfl, rfl, ?_, ?_⟩
      · rw [pyListSet_nat]
        simpa using hc.1
      · intro j w hw
        rw [pyListSet_nat] at hw
        by_cases hij : i = j
        · subst hij
          rw [List.get?_eq_getElem?, List.getElem?_set_self (by omega)] at hw
          cases hw
          rw [List.get?_eq_get h]
        · rw [List.get?_eq_getElem?, List.getElem?_set_ne hij] at hw
          rw [← List.get?_eq_getElem?] at hw
          exact hc.2 j w hw

/-- The elementwise scan of `__eq__` over in-range indices never raises and
returns `true` exactly when the scanned entries agree. -/
theorem lazyEqAux_ok {V : Type} [DecidableEq V] (is : List Nat) :
    ∀ (s t : LazyListState V), storageConsistent s → storageConsistent t →
      (∀ i ∈ is, i < s.data.length) → (∀ i ∈ is, i < t.data.length) →
      ∃ b, lazyEqAux s t is = .ok b ∧
        (b = true ↔ ∀ i ∈ is, s.data.get? i = t.data.get? i) := by
  induction is with
  | nil =>
    intro s t _ _ _ _
    exact ⟨true, rfl, by simp⟩
  | cons i rest ih =>
    intro s t hs ht hbs hbt
    have hsi : i < s.data.length := hbs i (by simp)
    have hti : i < t.data.length := hbt i (by simp)
    obtain ⟨s', hgs, hsd, _, hsc⟩ := getItem_nat_ok s hs i hsi
    obtain ⟨t', hgt, htd, _, htc⟩ := getItem_nat_ok t ht i hti
    rw [lazyEqAux, hgs, hgt]
    dsimp only
    by_cases hv : s.data.get ⟨i, hsi⟩ = t.data.get ⟨i, hti⟩
    · rw [if_pos hv]
      obtain ⟨b, hb, hbiff⟩ := ih s' t' hsc htc
        (fun j hj => by rw [hsd]; exact hbs j (by simp [hj]))
        (fun j hj => by rw [htd]; exact hbt j (by simp [hj]))
      refine ⟨b, hb, hbiff.trans ?_⟩
      rw [hsd, htd]
      constructor
      · intro hrest j hj
        rcases List.mem_cons.mp hj with rfl | hj2
        · rw [List.get?_eq_get hsi, List.get?_eq_get hti, hv]
        · exact hrest j hj2
      · intro hall j hj
        exact hall j (by simp [hj])
    · rw [if_neg hv]
      refine ⟨false, rfl, iff_of_false (by simp) ?_⟩
      intro hall
      apply hv
      have := hall i (by simp)
      rw [List.get?_eq_get hsi, List.get?_eq_get hti] at this
      exact Option.some_inj.mp this

/-- C10: the `__eq__` guard.  Comparing a `LazyList` with any non-`LazyList`
value — a plain list with elementwise-identical values included — returns
`False`; between two `LazyList`s (with consistent reachable memo states)
equality holds exactly when the decoded contents coincide elementwise, i.e.
equal lengths with pairwise-equal elements. -/
theorem lazyList_eq_guard {V : Type} [DecidableEq V] (s t : LazyListState V)
    (hs : storageConsistent s) (ht : storageConsistent t) :
    (∀ o : PyObject V, (∀ u, o ≠ .lazyList u) → lazyEq s o = .ok false) ∧
    (lazyEq s (.lazyList t) = .ok true ↔ s.data = t.data) := by
  constructor
  · intro o ho
    cases o with
    | lazyList u => exact absurd rfl (ho u)
    | plainList xs => rfl
    | otherObject => rfl
  · unfold lazyEq
    dsimp only
    by_cases hlen : s.data.length = t.data.length
    · rw [if_neg (not_not_intro hlen)]
      obtain ⟨b, hb, hbiff⟩ := lazyEqAux_ok (List.range s.data.length) s t hs ht
        (fun i hi => List.mem_range.mp hi)
        (fun i hi => hlen ▸ List.mem_range.mp hi)
      rw [hb]
      constructor
      · intro hok
        have hball : ∀ i ∈ List.range s.data.length, s.data.get? i = t.data.get? i :=
          hbiff.mp (Except.ok.inj hok)
        apply List.ext_get?
        intro n
        by_cases hn : n < s.data.length
        · exact hball n (List.mem_range.mpr hn)
        · rw [List.get?_eq_none.mpr (by omega), eq_comm, List.get?_eq_none.mpr (by omega)]
      · intro hdata
        rw [hbiff.mpr (fun i _ => by rw [hdata])]
    · rw [if_pos hlen]
      constructor
      · intro hok
        cases hok
      · intro hdata
        exact absurd (by rw [hdata]) hlen

/-- Witness for C10: a fresh two-element lazy collection is not equal to the
plain list with the same values, and is equal to another lazy collection
over the same shelf contents. -/
theorem lazyList_eq_guard_witness :
    lazyEq (initLazyList ([1, 2] : List Nat) .discard) (PyObject.plainList [1, 2])
      = .ok false ∧
    lazyEq (initLazyList ([1, 2] : List Nat) .discard)
      (PyObject.lazyList (initLazyList ([1, 2] : List Nat) .keep)) = .ok true := by
  constructor
  · exact (lazyList_eq_guard (initLazyList ([1, 2] : List Nat) .discard)
      (initLazyList ([1, 2] : List Nat) .keep)
      (storageConsistent_init _ _) (storageConsistent_init _ _)).1
      (PyObject.plainList [1, 2]) (fun u h => by cases h)
  · exact (lazyList_eq_guard (initLazyList ([1, 2] : List Nat) .discard)
      (initLazyList ([1, 2] : List Nat) .keep)
      (storageConsistent_init _ _) (storageConsistent_init _ _)).2.mpr rfl

/-- Witness for C8 (amended): a successful one-element write drains the
producer into entry `(0, 5)` and closes it. -/
theorem producer_release_amended_witness :
    ({ entries := [(0, 5)], producerClosed := true } : ShelfWriteOutcome Nat).producerClosed
        = true ∧
    ({ entries := [(0, 5)], producerClosed := true } : ShelfWriteOutcome Nat).entries
        = ([5] : List Nat).enum :=
  (producer_release_amended [5] (fun _ => true)).1
    { entries := [(0, 5)], producerClosed := true } rfl

/-- The lookup scan is the first instance passing the per-candidate test. -/
theorem lookupCache_eq_find? {Cfg Rec Val : Type} (fromDict : Rec → Option Cfg)
    (compat : Cfg → Cfg → Bool) (cfg : Cfg) (root : List (CacheInstance Rec Val)) :
    lookupCache fromDict compat cfg root = root.find? (lookMatches fromDict compat cfg) := by
  induction root with
  | nil => rfl
  | cons i rest ih =>
    unfold lookupCache
    by_cases h : lookMatches fromDict compat cfg i = true
    · rw [if_pos h, List.find?_cons_of_pos _ h]
    · rw [if_neg h, List.find?_cons_of_neg _ h, ih]

/-- The deletion loop only ever removes directories: the surviving root is a
sublist of the starting one, in every outcome. -/
theorem cleanupLoop_sublist {Rec Val : Type} (ms mc : Option Nat) :
    ∀ (dels root : List (CacheInstance Rec Val)),
      List.Sublist (exceptState (cleanupLoop ms mc dels root)) root := by
  intro dels
  induction dels with
  | nil =>
    intro root
    unfold cleanupLoop
    split
    · exact List.Sublist.refl root
    · exact List.Sublist.refl root
  | cons d rest ih =>
    intro root
    unfold cleanupLoop
    split
    · exact (ih (removeInst root d.name)).trans (List.filter_sublist root)
    · exact List.Sublist.refl root

/-- Touching the `.last-usage` marker leaves the per-candidate lookup test
unchanged (it only reads `config.yaml`). -/
theorem lookMatches_touchFn {Cfg Rec Val : Type} (fromDict : Rec → Option Cfg)
    (compat : Cfg → Cfg → Bool) (cfg : Cfg) (nm : Nat) (now : Int)
    (i : CacheInstance Rec Val) :
    lookMatches fromDict compat cfg (touchFn nm now i) = lookMatches fromDict compat cfg i := by
  unfold touchFn
  split <;> rfl

/-- Touching the marker does not rename the directory. -/
theorem touchFn_name {Rec Val : Type} (nm : Nat) (now : Int) (i : CacheInstance Rec Val) :
    (touchFn nm now i).name = i.name := by
  unfold touchFn
  split <;> rfl

/-- Touching the marker does not alter the payload. -/
theorem touchFn_payload {Rec Val : Type} (nm : Nat) (now : Int) (i : CacheInstance Rec Val) :
    (touchFn nm now i).payload = i.payload := by
  unfold touchFn
  split <;> rfl

/-- The `.last-usage` write creates or deletes no instance directory. -/
theorem touch_map_name {Rec Val : Type} (root : List (CacheInstance Rec Val))
    (nm : Nat) (now : Int) :
    (touch root nm now).map CacheInstance.name = root.map CacheInstance.name := by
  unfold touch
  rw [List.map_map]
  exact List.map_congr_left (fun i _ => touchFn_name nm now i)

/-- Looking up a touched root finds the touched image of the lookup in the
untouched root. -/
theorem lookupCache_touch {Cfg Rec Val : Type} (fromDict : Rec → Option Cfg)
    (compat : Cfg → Cfg → Bool) (cfg : Cfg) (root : List (CacheInstance Rec Val))
    (nm : Nat) (now : Int) :
    lookupCache fromDict compat cfg (touch root nm now)
      = (lookupCache fromDict compat cfg root).map (touchFn nm now) := by
  rw [lookupCache_eq_find?, lookupCache_eq_find?]
  unfold touch
  induction root with
  | nil => rfl
  | cons i rest ih =>
    rw [List.map_cons]
    by_cases h : lookMatches fromDict compat cfg i = true
    · rw [List.find?_cons_of_pos _
          (show lookMatches fromDict compat cfg (touchFn nm now i) = true from
            (lookMatches_touchFn fromDict compat cfg nm now i).trans h),
        List.find?_cons_of_pos _ h]
      rfl
    · rw [List.find?_cons_of_neg _
          (show ¬lookMatches fromDict compat cfg (touchFn nm now i) = true from
            fun hh => h ((lookMatches_touchFn fromDict compat cfg nm now i).symm.trans hh)),
        List.find?_cons_of_neg _ h, ih]

/-- C2: rollback atomicity.  When the guarded span (user computation, payload
write, or commit) raises — cooperative-cancellation signals included, both
`except` arms do the same — the wrapper deletes the fresh instance directory
in its entirety and re-raises the original exception unchanged: the root, its
instance count and its total size afterwards equal their values before the
call, and `shutil.rmtree` of the fresh directory restores exactly the
original root. -/
theorem rollback_atomicity {Cfg Rec Val Err : Type} (env : WrapperEnv Cfg Rec)
    (root0 : List (CacheInstance Rec Val)) (cfg : Cfg) (e : Err)
    (newName sz : Nat) (now : Int)
    (hmiss : lookupCache env.fromDict env.compat cfg root0 = none)
    (hfresh : ∀ i ∈ root0, i.name ≠ newName) :
    (wrapperCall env root0 cfg (Except.error e) newName sz now).result
        = .error (.user e) ∧
    (wrapperCall env root0 cfg (Except.error e) newName sz now).root = root0 ∧
    (wrapperCall env root0 cfg (Except.error e) newName sz now).root.length
        = root0.length ∧
    totalSize (wrapperCall env root0 cfg (Except.error e) newName sz now).root
        = totalSize root0 ∧
    ∀ v : Val, removeInst (root0 ++ [mkInstance env.toDict cfg v newName sz now]) newName
        = root0 := by
  have hw : wrapperCall env root0 cfg (Except.error e) newName sz now
      = { result := .error (.user e), root := root0, fCalls := 1 } := by
    unfold wrapperCall
    rw [hmiss]
  refine ⟨by rw [hw], by rw [hw], by rw [hw], by rw [hw], ?_⟩
  intro v
  unfold removeInst
  rw [List.filter_append]
  have h1 : root0.filter (fun i => i.name != newName) = root0 :=
    List.filter_eq_self.mpr (fun i hi => bne_iff_ne.mpr (hfresh i hi))
  have h2 : ([mkInstance env.toDict cfg v newName sz now] :
      List (CacheInstance Rec Val)).filter (fun i => i.name != newName) = [] := by
    simp [mkInstance, List.filter_cons]
  rw [h1, h2, List.append_nil]

/-- Witness for C2: a failing computation against an empty concrete root
leaves the root empty and re-raises the failure. -/
theorem rollback_atomicity_witness :
    (wrapperCall ⟨fun c : Nat => c, fun r : Nat => some r, fun a b => a == b, none, none⟩
        ([] : List (CacheInstance Nat Nat)) 7 (Except.error ()) 0 1 0).result
        = .error (.user ()) ∧
    (wrapperCall ⟨fun c : Nat => c, fun r : Nat => some r, fun a b => a == b, none, none⟩
        ([] : List (CacheInstance Nat Nat)) 7 (Except.error ()) 0 1 0).root = [] ∧
    (wrapperCall ⟨fun c : Nat => c, fun r : Nat => some r, fun a b => a == b, none, none⟩
        ([] : List (CacheInstance Nat Nat)) 7 (Except.error ()) 0 1 0).root.length
        = ([] : List (CacheInstance Nat Nat)).length ∧
    totalSize (wrapperCall ⟨fun c : Nat => c, fun r : Nat => some r, fun a b => a == b,
        none, none⟩ ([] : List (CacheInstance Nat Nat)) 7 (Except.error ()) 0 1 0).root
        = totalSize ([] : List (CacheInstance Nat Nat)) ∧
    ∀ v : Nat, removeInst (([] : List (CacheInstance Nat Nat))
        ++ [mkInstance (fun c : Nat => c) 7 v 0 1 0]) 0 = [] :=
  rollback_atomicity ⟨fun c : Nat => c, fun r : Nat => some r, fun a b => a == b, none, none⟩
    [] 7 () 0 1 0 rfl (by simp)

/-- C1: idempotent hit.  Starting from a root with no compatible instance,
a first wrapper call that computes `v` (committing a fresh instance whose
eviction pass completes normally with root `root2`) followed by a second call
with a compatible descriptor runs the user function exactly once in total:
the second call is a pure hit — its `fCalls` is 0 whatever its `compute2`
argument — returning the same result as the first call and leaving exactly
the same instance directories under the root. -/
theorem idempotent_hit {Cfg Rec Val Err : Type} (env : WrapperEnv Cfg Rec)
    (root0 : List (CacheInstance Rec Val)) (cfg loaded : Cfg) (v : Val)
    (newName sz : Nat) (now : Int) (compute2 : Except Err Val)
    (newName2 sz2 : Nat) (now2 : Int) (root2 : List (CacheInstance Rec Val))
    (hrt : env.fromDict (env.toDict cfg) = some loaded)
    (hcp : env.compat cfg loaded = true)
    (hmiss : lookupCache env.fromDict env.compat cfg root0 = none)
    (hclean : cleanup env.maxSize env.maxCount
        (root0 ++ [mkInstance env.toDict cfg v newName sz now]) newName = .ok root2) :
    (wrapperCall env root0 cfg (Except.ok v : Except Err Val) newName sz now).fCalls +
      (wrapperCall env (wrapperCall env root0 cfg (Except.ok v : Except Err Val)
          newName sz now).root cfg compute2 newName2 sz2 now2).fCalls = 1 ∧
    (wrapperCall env (wrapperCall env root0 cfg (Except.ok v : Except Err Val)
        newName sz now).root cfg compute2 newName2 sz2 now2).result
      = (wrapperCall env root0 cfg (Except.ok v : Except Err Val) newName sz now).result ∧
    (wrapperCall env (wrapperCall env root0 cfg (Except.ok v : Except Err Val)
        newName sz now).root cfg compute2 newName2 sz2 now2).root.map CacheInstance.name
      = (wrapperCall env root0 cfg (Except.ok v : Except Err Val)
          newName sz now).root.map CacheInstance.name := by
  have hfirst : wrapperCall env root0 cfg (Except.ok v : Except Err Val) newName sz now
      = { result := .ok v, root := touch root2 newName now, fCalls := 1 } := by
    unfold wrapperCall
    rw [hmiss]
    dsimp only
    rw [hclean]
  have hname : (mkInstance env.toDict cfg v newName sz now :
      CacheInstance Rec Val).name = newName := rfl
  have hcm : mkInstance env.toDict cfg v newName sz now ∈ root2 := by
    have h2 := cleanup_mem_exempt env.maxSize env.maxCount
      (root0 ++ [mkInstance env.toDict cfg v newName sz now])
      (mkInstance env.toDict cfg v newName sz now) (by simp)
    rw [hname, hclean] at h2
    exact h2
  have hsub : List.Sublist root2 (root0 ++ [mkInstance env.toDict cfg v newName sz now]) := by
    have hs := cleanupLoop_sublist env.maxSize env.maxCount
      (rankedDeletable (root0 ++ [mkInstance env.toDict cfg v newName sz now]) newName)
      (root0 ++ [mkInstance env.toDict cfg v newName sz now])
    rw [show cleanupLoop env.maxSize env.maxCount
        (rankedDeletable (root0 ++ [mkInstance env.toDict cfg v newName sz now]) newName)
        (root0 ++ [mkInstance env.toDict cfg v newName sz now]) = Except.ok root2
      from hclean] at hs
    exact hs
  have hlook2 : lookupCache env.fromDict env.compat cfg (touch root2 newName now)
      = some (touchFn newName now (mkInstance env.toDict cfg v newName sz now)) := by
    rw [lookupCache_touch]
    suffices h : lookupCache env.fromDict env.compat cfg root2
        = some (mkInstance env.toDict cfg v newName sz now) by rw [h]; rfl
    rw [lookupCache_eq_find?]
    have hpc : lookMatches env.fromDict env.compat cfg
        (mkInstance env.toDict cfg v newName sz now : CacheInstance Rec Val) = true := by
      show (match env.fromDict (env.toDict cfg) with
        | none => false
        | some l => env.compat cfg l) = true
      rw [hrt]
      exact hcp
    have hnone : ∀ x ∈ root0, ¬(lookMatches env.fromDict env.compat cfg x = true) := by
      rw [lookupCache_eq_find?] at hmiss
      exact List.find?_eq_none.mp hmiss
    have hsome : (root2.find? (lookMatches env.fromDict env.compat cfg)).isSome :=
      List.find?_isSome.mpr ⟨mkInstance env.toDict cfg v newName sz now, hcm, hpc⟩
    obtain ⟨x, hx⟩ := Option.isSome_iff_exists.mp hsome
    have hxmem : x ∈ root0 ++ [mkInstance env.toDict cfg v newName sz now] :=
      hsub.subset (List.mem_of_find?_eq_some hx)
    have hxp : lookMatches env.fromDict env.compat cfg x = true := List.find?_some hx
    rcases List.mem_append.mp hxmem with h0 | h1
    · exact absurd hxp (hnone x h0)
    · rw [hx, List.mem_singleton.mp h1]
  have hsecond : wrapperCall env (touch root2 newName now) cfg compute2 newName2 sz2 now2
      = { result := .ok ((touchFn newName now
              (mkInstance env.toDict cfg v newName sz now)).payload),
          root := touch (touch root2 newName now)
              (touchFn newName now (mkInstance env.toDict cfg v newName sz now)).name now2,
          fCalls := 0 } := by
    unfold wrapperCall
    rw [hlook2]
  have hpay : (touchFn newName now
      (mkInstance env.toDict cfg v newName sz now : CacheInstance Rec Val)).payload = v := by
    rw [touchFn_payload]
    rfl
  refine ⟨?_, ?_, ?_⟩
  · rw [hfirst]
    dsimp only
    rw [hsecond]
    rfl
  · rw [hfirst]
    dsimp only
    rw [hsecond]
    dsimp only
    rw [hpay]
  · rw [hfirst]
    dsimp only
    rw [hsecond]
    dsimp only
    rw [touch_map_name]

/-- Witness for C1: a concrete miss-then-hit pair of calls over an empty
root, identity record conversion and equality compatibility. -/
theorem idempotent_hit_witness :
    (wrapperCall ⟨fun c : Nat => c, fun r : Nat => some r, fun a b => a == b, none, none⟩
        ([] : List (CacheInstance Nat Nat)) 7 (Except.ok 42 : Except Unit Nat) 0 1 0).fCalls +
      (wrapperCall ⟨fun c : Nat => c, fun r : Nat => some r, fun a b => a == b, none, none⟩
        (wrapperCall ⟨fun c : Nat => c, fun r : Nat => some r, fun a b => a == b, none, none⟩
          ([] : List (CacheInstance Nat Nat)) 7 (Except.ok 42 : Except Unit Nat) 0 1 0).root
        7 (Except.error () : Except Unit Nat) 1 1 1).fCalls = 1 ∧
    (wrapperCall ⟨fun c : Nat => c, fun r : Nat => some r, fun a b => a == b, none, none⟩
        (wrapperCall ⟨fun c : Nat => c, fun r : Nat => some r, fun a b => a == b, none, none⟩
          ([] : List (CacheInstance Nat Nat)) 7 (Except.ok 42 : Except Unit Nat) 0 1 0).root
        7 (Except.error () : Except Unit Nat) 1 1 1).result
      = (wrapperCall ⟨fun c : Nat => c, fun r : Nat => some r, fun a b => a == b, none, none⟩
          ([] : List (CacheInstance Nat Nat)) 7 (Except.ok 42 : Except Unit Nat) 0 1 0).result ∧
    (wrapperCall ⟨fun c : Nat => c, fun r : Nat => some r, fun a b => a == b, none, none⟩
        (wrapperCall ⟨fun c : Nat => c, fun r : Nat => some r, fun a b => a == b, none, none⟩
          ([] : List (CacheInstance Nat Nat)) 7 (Except.ok 42 : Except Unit Nat) 0 1 0).root
        7 (Except.error () : Except Unit Nat) 1 1 1).root.map CacheInstance.name
      = (wrapperCall ⟨fun c : Nat => c, fun r : Nat => some r, fun a b => a == b, none, none⟩
          ([] : List (CacheInstance Nat Nat)) 7 (Except.ok 42 : Except Unit Nat)
          0 1 0).root.map CacheInstance.name :=
  idempotent_hit ⟨fun c : Nat => c, fun r : Nat => some r, fun a b => a == b, none, none⟩
    [] 7 7 42 0 1 0 (Except.error () : Except Unit Nat) 1 1 1
    [mkInstance (fun c : Nat => c) 7 42 0 1 0] rfl rfl rfl rfl

end EzDiskCache
